import Mathlib

/-!
Verification development for the ts-caldav CalDAV client.

The TypeScript sources are shallowly embedded: pure computations become Lean
functions, network interactions become explicit oracles (the server responses
a call would receive, plus the list of requests a call issues), and JavaScript
dates become records of their UTC-view and local-view calendar components at
second precision.  External collaborators (the HTTP transport, the XML parser,
the ical.js serializer) are modelled at their interfaces, as the specification
prescribes.
-/

namespace TsCalDAV

/-- Calendar date-time components at second precision (JavaScript dates carry
milliseconds; every formatter and converter in the client truncates to whole
seconds, so the model works at second precision throughout). -/
structure DT where
  year : Nat
  month : Nat
  day : Nat
  hour : Nat
  minute : Nat
  second : Nat
deriving DecidableEq, Repr

/-- A calendar date with no time of day (an iCalendar DATE value). -/
structure DateOnly where
  year : Nat
  month : Nat
  day : Nat
deriving DecidableEq, Repr

/-- Model of a JavaScript Date: one instant seen through its UTC components
(getUTCFullYear, toISOString, ...) and through its runtime-local components
(getFullYear, getHours, ...).  The two views are linked by the runtime
timezone, which the model keeps abstract; see TZModel. -/
structure JSDate where
  utc : DT
  loc : DT
deriving DecidableEq, Repr

/-- The JavaScript runtime timezone, abstracted as the two conversions between
the UTC view and the local view of an instant.  Theorems quantify over this, so
they hold for every runtime timezone. -/
structure TZModel where
  locOfUtc : DT → DT
  utcOfLoc : DT → DT

/-- An item reference: href plus entity tag (EventRef / TodoRef in models.ts).
The minimal unit consumed by the sync diff. -/
structure EventRef where
  href : String
  etag : String
deriving DecidableEq, Repr

/-- Membership test of a JavaScript Map built as
new Map(refs.map(i => [i.href, i.etag])): Map.has(href). -/
def mapHas (l : List EventRef) (h : String) : Bool :=
  l.any (fun r => r.href == h)

/-- Lookup in the same JavaScript Map: when the source list repeats a key, the
later entry overwrites the earlier one, hence the search over the reversed
list. -/
def mapGet (l : List EventRef) (h : String) : Option String :=
  (l.reverse.find? (fun r => r.href == h)).map (fun r => r.etag)

/-- Output record of CalDAVClient.diffRefs. -/
structure DiffResult where
  newItems : List String
  updatedItems : List String
  deletedItems : List String
deriving DecidableEq, Repr

/-- First loop of diffRefs: walk remoteRefs in order, pushing each href absent
from the local map onto newItems and each href whose local entity tag differs
onto updatedItems. -/
def diffNewUpdated (localRefs : List EventRef) : List EventRef → List String × List String
  | [] => ([], [])
  | r :: rs =>
    let rest := diffNewUpdated localRefs rs
    if ¬ (mapHas localRefs r.href = true) then (r.href :: rest.1, rest.2)
    else if ¬ (mapGet localRefs r.href = some r.etag) then (rest.1, r.href :: rest.2)
    else rest

/-- Second loop of diffRefs: walk localRefs in order, pushing each href absent
from the remote map onto deletedItems. -/
def diffDeleted (remoteRefs : List EventRef) : List EventRef → List String
  | [] => []
  | l :: ls =>
    if ¬ (mapHas remoteRefs l.href = true) then l.href :: diffDeleted remoteRefs ls
    else diffDeleted remoteRefs ls

/-- Shallow embedding of CalDAVClient.diffRefs: classify remote references
against local references by href, yielding the new / updated / deleted href
lists. -/
def diffRefs (remoteRefs localRefs : List EventRef) : DiffResult :=
  let nu := diffNewUpdated localRefs remoteRefs
  { newItems := nu.1
  , updatedItems := nu.2
  , deletedItems := diffDeleted remoteRefs localRefs }

/-- Result record of CalDAVClient.syncChanges (models.ts SyncChangesResult). -/
structure SyncChangesResult where
  changed : Bool
  newCtag : String
  newEvents : List String
  updatedEvents : List String
  deletedEvents : List String
deriving DecidableEq, Repr

/-- Result record of CalDAVClient.syncTodoChanges (models.ts SyncTodosResult). -/
structure SyncTodosResult where
  changed : Bool
  newCtag : String
  newTodos : List String
  updatedTodos : List String
  deletedTodos : List String
deriving DecidableEq, Repr

/-- The server state a sync cycle observes: the answer of the change-tag
PROPFIND and the answers of the two possible reference REPORTs. -/
structure SyncServer where
  ctag : String
  eventRefs : List EventRef
  todoRefs : List EventRef

/-- The network requests a sync cycle can issue. -/
inductive NetCall where
  | getCtagCall
  | itemRefsCall (component : String)
deriving DecidableEq, Repr

/-- Shallow embedding of CalDAVClient.syncChanges.  Besides the result it
returns the requests issued, in order: the change-tag read always happens
first; the VEVENT reference REPORT happens only on the stale path.  The
JavaScript guard is if (!ctag || ctag === remoteCtag), and !ctag on a string
holds exactly for the empty string. -/
def syncChanges (srv : SyncServer) (ctag : String) (localEvents : List EventRef) :
    SyncChangesResult × List NetCall :=
  let remoteCtag := srv.ctag
  if ctag = "" ∨ ctag = remoteCtag then
    ({ changed := false, newCtag := remoteCtag
     , newEvents := [], updatedEvents := [], deletedEvents := [] },
     [NetCall.getCtagCall])
  else
    let d := diffRefs srv.eventRefs localEvents
    ({ changed := true, newCtag := remoteCtag
     , newEvents := d.newItems, updatedEvents := d.updatedItems
     , deletedEvents := d.deletedItems },
     [NetCall.getCtagCall, NetCall.itemRefsCall "VEVENT"])

/-- Shallow embedding of CalDAVClient.syncTodoChanges, identical to
syncChanges except for the component type and the result field names. -/
def syncTodoChanges (srv : SyncServer) (ctag : String) (localTodos : List EventRef) :
    SyncTodosResult × List NetCall :=
  let remoteCtag := srv.ctag
  if ctag = "" ∨ ctag = remoteCtag then
    ({ changed := false, newCtag := remoteCtag
     , newTodos := [], updatedTodos := [], deletedTodos := [] },
     [NetCall.getCtagCall])
  else
    let d := diffRefs srv.todoRefs localTodos
    ({ changed := true, newCtag := remoteCtag
     , newTodos := d.newItems, updatedTodos := d.updatedItems
     , deletedTodos := d.deletedItems },
     [NetCall.getCtagCall, NetCall.itemRefsCall "VTODO"])

/-- Recurrence frequency (models.ts RecurrenceRule.freq). -/
inductive Freq where
  | DAILY
  | WEEKLY
  | MONTHLY
  | YEARLY
deriving DecidableEq, Repr

/-- RecurrenceRule record (models.ts).  Dates are JSDates; numeric parts are
integers (BYMONTHDAY admits negative values). -/
structure RecurrenceRule where
  freq : Option Freq
  interval : Option Int
  count : Option Int
  untilDate : Option JSDate
  byday : Option (List String)
  bymonthday : Option (List Int)
  bymonth : Option (List Int)
deriving DecidableEq, Repr

/-- Modelled from the spec: the Alarm tagged union of the data model (the
current models.ts revision is absent from src; shape per spec section 3 and
per the fields read and written by parser.ts and buildICSData).  Every variant
carries a required trigger. -/
inductive Alarm where
  | display (trigger : String) (description : Option String)
  | email (trigger : String) (summary : Option String) (description : Option String)
      (attendees : List String)
  | audio (trigger : String)
deriving DecidableEq, Repr

/-- Modelled from the spec: the Event input record (spec section 3; the
current models.ts revision is absent from src, the older one in src lacks the
timezone and alarm fields used by the current client and parser).  The source
field named end is a Lean keyword and is embedded as endTime. -/
structure Event where
  uid : Option String
  summary : String
  start : JSDate
  endTime : JSDate
  description : Option String
  location : Option String
  wholeDay : Option Bool
  recurrenceRule : Option RecurrenceRule
  startTzid : Option String
  endTzid : Option String
  alarms : Option (List Alarm)
deriving DecidableEq, Repr

/-- An iCalendar time value: a DATE, or a DATE-TIME that is either UTC or
floating (wall clock with no designator). -/
inductive ICalTime where
  | date (d : DateOnly)
  | dt (t : DT) (isUTC : Bool)
deriving DecidableEq, Repr

/-- A DTSTART / DTEND property: its time value plus an optional TZID
parameter. -/
structure TimeProp where
  time : ICalTime
  tzid : Option String
deriving DecidableEq, Repr

/-- Typed model of the serialized RRULE value, mirroring the rruleProps record
buildICSData assembles; the external ical.js serializer round-trips the record
(comma-joined list parts included), so the embedding keeps the parts typed.
UNTIL is stored at second precision in UTC, exactly what
ICAL.Time.fromJSDate(until, true).toString() keeps. -/
structure RRuleParts where
  FREQ : Option Freq
  INTERVAL : Option Int
  COUNT : Option Int
  UNTIL : Option DT
  BYDAY : Option (List String)
  BYMONTHDAY : Option (List Int)
  BYMONTH : Option (List Int)
deriving DecidableEq, Repr

/-- A VALARM subcomponent as a property record. -/
structure VAlarm where
  action : Option String
  trigger : Option String
  description : Option String
  summary : Option String
  attendees : List String
deriving DecidableEq, Repr

/-- A VEVENT subcomponent as a property record (the component tree the
external iCalendar parser and builder exchange). -/
structure VEvent where
  uid : Option String
  dtstamp : Option DT
  dtstart : Option TimeProp
  dtend : Option TimeProp
  summary : Option String
  description : Option String
  location : Option String
  rrule : Option RRuleParts
  valarms : List VAlarm
deriving DecidableEq, Repr

/-- JavaScript truthiness guard on an optional string: the empty string is
falsy. -/
def truthyStr : Option String → Option String
  | some s => if s = "" then none else some s
  | none => none

/-- JavaScript truthiness guard on an optional number: zero is falsy. -/
def truthyInt : Option Int → Option Int
  | some k => if k = 0 then none else some k
  | none => none

/-- Alarm serialization inside buildICSData: trigger and action always,
description only when truthy, EMAIL additionally summary and attendees. -/
def encodeAlarm : Alarm → VAlarm
  | .display t d =>
    { action := some "DISPLAY", trigger := some t
    , description := truthyStr d, summary := none, attendees := [] }
  | .email t s d att =>
    { action := some "EMAIL", trigger := some t
    , description := truthyStr d, summary := truthyStr s, attendees := att }
  | .audio t =>
    { action := some "AUDIO", trigger := some t
    , description := none, summary := none, attendees := [] }

/-- The rruleProps record buildICSData assembles: each part is set only when
the corresponding RecurrenceRule field is truthy (arrays are always truthy in
JavaScript, including empty ones, so the BY parts copy the optional list as
is; zero numbers are falsy and dropped). -/
def encodeRRule (rr : RecurrenceRule) : RRuleParts :=
  { FREQ := rr.freq
  , INTERVAL := truthyInt rr.interval
  , COUNT := truthyInt rr.count
  , UNTIL := rr.untilDate.map (fun u => u.utc)
  , BYDAY := rr.byday
  , BYMONTHDAY := rr.bymonthday
  , BYMONTH := rr.bymonth }

/-- Shallow embedding of CalDAVClient.buildICSData (part_002): the VEVENT
component it builds.  Whole-day bounds become DATE values taken from the UTC
date of the JavaScript date (toISOString splitting); timed bounds become UTC
DATE-TIME values (ICAL.Time.fromJSDate with useUTC), carrying the
caller-supplied TZID parameter exactly when it is truthy (the if on
event.startTzid / event.endTzid, so an empty identifier attaches no
parameter).  now stands for the generation timestamp.  The surrounding
VCALENDAR wrapper (version, prodid) carries no event data and is not
modelled. -/
def buildICSData (now : DT) (event : Event) (uid : String) : VEvent :=
  let dtstart : TimeProp :=
    if event.wholeDay = some true then
      { time := .date ⟨event.start.utc.year, event.start.utc.month, event.start.utc.day⟩
      , tzid := none }
    else
      { time := .dt event.start.utc true, tzid := truthyStr event.startTzid }
  let dtend : TimeProp :=
    if event.wholeDay = some true then
      { time := .date ⟨event.endTime.utc.year, event.endTime.utc.month, event.endTime.utc.day⟩
      , tzid := none }
    else
      { time := .dt event.endTime.utc true, tzid := truthyStr event.endTzid }
  { uid := some uid
  , dtstamp := some now
  , dtstart := some dtstart
  , dtend := some dtend
  , summary := some event.summary
  , description := some (event.description.getD "")
  , location := some (event.location.getD "")
  , rrule := event.recurrenceRule.map encodeRRule
  , valarms := (event.alarms.getD []).map encodeAlarm }

/-- ICAL.Time.toJSDate: a DATE value yields runtime-local midnight of that
date; a UTC DATE-TIME yields the instant with those UTC components; a floating
DATE-TIME is interpreted in the runtime-local zone. -/
def icalToJSDate (tz : TZModel) : ICalTime → JSDate
  | .date d =>
    let m : DT := ⟨d.year, d.month, d.day, 0, 0, 0⟩
    { utc := tz.utcOfLoc m, loc := m }
  | .dt t true => { utc := t, loc := tz.locOfUtc t }
  | .dt t false => { utc := tz.utcOfLoc t, loc := t }

/-- Shallow embedding of parseRecurrence (src/src/utils/parser.ts) composed
with ICAL.Recur.fromString on the serialized parts: the frequency map is the
identity on the four admitted values, an absent INTERVAL defaults to 1 (the
ICAL.Recur default the code reads back unconditionally), a zero or absent
count becomes undefined, UNTIL converts through toJSDate, and the BY parts
pass through. -/
def parseRecurrence (tz : TZModel) (parts : RRuleParts) : RecurrenceRule :=
  { freq := parts.FREQ
  , interval := some (parts.INTERVAL.getD 1)
  , count :=
      match parts.COUNT with
      | some c => if c = 0 then none else some c
      | none => none
  , untilDate := parts.UNTIL.map (fun t => { utc := t, loc := tz.locOfUtc t })
  , byday := parts.BYDAY
  , bymonthday := parts.BYMONTHDAY
  , bymonth := parts.BYMONTH }

/-- A decoded alarm (the records parseEvents and parseTodos push). -/
inductive ParsedAlarm where
  | display (trigger : String) (description : Option String)
  | email (trigger : String) (description : Option String) (summary : Option String)
      (attendees : List String)
  | audio (trigger : String)
deriving DecidableEq, Repr

/-- Per-VALARM decode loop body: entries without a truthy action and trigger
are skipped, as are actions other than DISPLAY, EMAIL and AUDIO. -/
def decodeAlarm (a : VAlarm) : Option ParsedAlarm :=
  match a.action, a.trigger with
  | some act, some trig =>
    if act = "" ∨ trig = "" then none
    else if act = "DISPLAY" then some (.display trig a.description)
    else if act = "EMAIL" then some (.email trig a.description a.summary a.attendees)
    else if act = "AUDIO" then some (.audio trig)
    else none
  | _, _ => none

/-- All alarms decoded from the VALARM subcomponents, in order. -/
def decodeAlarms (l : List VAlarm) : List ParsedAlarm :=
  l.filterMap decodeAlarm

/-- A decoded event (the record parseEvents pushes).  The source field named
end is embedded as endTime. -/
structure ParsedEvent where
  uid : Option String
  summary : String
  start : JSDate
  endTime : JSDate
  description : Option String
  location : Option String
  etag : String
  href : Option String
  wholeDay : Bool
  recurrenceRule : Option RecurrenceRule
  startTzid : Option String
  endTzid : Option String
  alarms : List ParsedAlarm
deriving DecidableEq, Repr

/-- Decode of one VEVENT subcomponent inside parseEvents
(src/src/utils/parser.ts).  none models the exception raised when DTSTART is
absent (reading isDate off a null startDate), which the per-entry try block
catches.  A date-valued DTSTART marks wholeDay; the whole-day end is copied
unchanged (new Date(endDate.getTime()), no one-day adjustment); a missing
DTEND falls back to the start; an empty or missing SUMMARY becomes the fixed
placeholder. -/
def decodeVEvent (tz : TZModel) (etag : String) (href : Option String)
    (v : VEvent) : Option ParsedEvent :=
  match v.dtstart with
  | none => none
  | some sp =>
    let isWholeDay : Bool := match sp.time with | .date _ => true | .dt _ _ => false
    let startDate := icalToJSDate tz sp.time
    let endDate :=
      match v.dtend with
      | some ep => icalToJSDate tz ep.time
      | none => startDate
    let adjustedEnd :=
      if isWholeDay then ({ utc := endDate.utc, loc := endDate.loc } : JSDate)
      else endDate
    some
    { uid := v.uid
    , summary :=
        match v.summary with
        | some s => if s = "" then "Untitled Event" else s
        | none => "Untitled Event"
    , start := startDate
    , endTime := adjustedEnd
    , description := truthyStr v.description
    , location := truthyStr v.location
    , etag := etag
    , href := href
    , wholeDay := isWholeDay
    , recurrenceRule := v.rrule.map (parseRecurrence tz)
    , startTzid := sp.tzid
    , endTzid := v.dtend.bind (fun ep => ep.tzid)
    , alarms := decodeAlarms v.valarms }

/-- The embedded calendar document of one multistatus entry after ICAL.parse:
either unparseable, or a component tree whose VEVENT subcomponents are
listed. -/
inductive CalData where
  | malformed
  | parsed (doc : List VEvent)
deriving DecidableEq, Repr

/-- One multistatus response entry as parseEvents reads it: href, the getetag
property, and the calendar-data property (none when the entry has no
propstat.prop or no calendar-data). -/
structure MSEntry where
  href : Option String
  getetag : Option String
  calendarData : Option CalData
deriving DecidableEq, Repr

/-- The VEVENT decode loop over one parsed document: an exception inside one
subcomponent ends the per-entry try block, keeping the items already pushed
and dropping the rest of this document. -/
def decodeVEvents (tz : TZModel) (etag : String) (href : Option String) :
    List VEvent → List ParsedEvent
  | [] => []
  | v :: vs =>
    match decodeVEvent tz etag href v with
    | some e => e :: decodeVEvents tz etag href vs
    | none => []

/-- Events contributed by one multistatus entry: nothing without
calendar-data, nothing when ICAL.parse throws (caught and logged), otherwise
the decoded VEVENTs with the entry etag (empty string when absent) and
href. -/
def entryEvents (tz : TZModel) (e : MSEntry) : List ParsedEvent :=
  match e.calendarData with
  | none => []
  | some .malformed => []
  | some (.parsed doc) => decodeVEvents tz (e.getetag.getD "") e.href doc

/-- Shallow embedding of parseEvents (src/src/utils/parser.ts) over the
XML-decoded multistatus entries; none models a body without
multistatus.response, and the single-entry case is the normalized one-element
list. -/
def parseEvents (tz : TZModel) (response : Option (List MSEntry)) : List ParsedEvent :=
  match response with
  | none => []
  | some entries => entries.flatMap (entryEvents tz)

/-- A VTODO subcomponent as a property record. -/
structure VTodo where
  uid : Option String
  summary : Option String
  description : Option String
  location : Option String
  status : Option String
  dtstart : Option ICalTime
  due : Option ICalTime
  completed : Option ICalTime
  valarms : List VAlarm
deriving DecidableEq, Repr

/-- Modelled from the spec: a decoded todo (spec section 3; the current
models.ts revision is absent from src), fields exactly those parseTodos
pushes. -/
structure ParsedTodo where
  uid : Option String
  summary : String
  start : Option JSDate
  due : Option JSDate
  completed : Option JSDate
  status : Option String
  description : Option String
  location : Option String
  etag : String
  href : Option String
  alarms : List ParsedAlarm
deriving DecidableEq, Repr

/-- Decode of one VTODO subcomponent inside parseTodos
(src/src/utils/parser.ts): no field is mandatory, an empty or missing SUMMARY
becomes the fixed placeholder, the optional times convert through toJSDate,
and description, location and status pass through unguarded. -/
def decodeVTodo (tz : TZModel) (etag : String) (href : Option String)
    (t : VTodo) : ParsedTodo :=
  { uid := t.uid
  , summary :=
      match t.summary with
      | some s => if s = "" then "Untitled Todo" else s
      | none => "Untitled Todo"
  , start := t.dtstart.map (icalToJSDate tz)
  , due := t.due.map (icalToJSDate tz)
  , completed := t.completed.map (icalToJSDate tz)
  , status := t.status
  , description := t.description
  , location := t.location
  , etag := etag
  , href := href
  , alarms := decodeAlarms t.valarms }

/-- The embedded calendar document of one multistatus entry for parseTodos. -/
inductive TodoCalData where
  | malformed
  | parsed (doc : List VTodo)
deriving DecidableEq, Repr

/-- One multistatus response entry as parseTodos reads it. -/
structure TodoMSEntry where
  href : Option String
  getetag : Option String
  calendarData : Option TodoCalData
deriving DecidableEq, Repr

/-- Todos contributed by one multistatus entry. -/
def entryTodos (tz : TZModel) (e : TodoMSEntry) : List ParsedTodo :=
  match e.calendarData with
  | none => []
  | some .malformed => []
  | some (.parsed doc) => doc.map (decodeVTodo tz (e.getetag.getD "") e.href)

/-- Shallow embedding of parseTodos (src/src/utils/parser.ts). -/
def parseTodos (tz : TZModel) (response : Option (List TodoMSEntry)) : List ParsedTodo :=
  match response with
  | none => []
  | some entries => entries.flatMap (entryTodos tz)

/-- The UTC calendar date of date-time components. -/
def dateOfDT (t : DT) : DateOnly :=
  ⟨t.year, t.month, t.day⟩

/-- Field-for-field agreement of an original recurrence rule with its decoded
form, dates compared on their UTC views at second precision. -/
def sameRecurrence : Option RecurrenceRule → Option RecurrenceRule → Prop
  | none, none => True
  | some rr, some rd =>
      rd.freq = rr.freq ∧ rd.interval = rr.interval ∧ rd.count = rr.count ∧
      rd.untilDate.map (fun u => u.utc) = rr.untilDate.map (fun u => u.utc) ∧
      rd.byday = rr.byday ∧ rd.bymonthday = rr.bymonthday ∧ rd.bymonth = rr.bymonth
  | _, _ => False

/-- A Nat rendered through toString then padStart(2, "0"): the pad helper of
formatDate (src/src/utils/encode.ts).  The source pads getMonth() + 1; the
model's months are 1-based already. -/
def pad (n : Nat) : String :=
  let s := toString n
  if s.length < 2 then "0" ++ s else s

/-- The year field of Date.toISOString, four digits zero-padded. -/
def isoYear (n : Nat) : String :=
  let s := toString n
  if s.length ≥ 4 then s else String.mk (List.replicate (4 - s.length) '0') ++ s

/-- Shallow embedding of formatDate (src/src/utils/encode.ts): with utc set
the basic-format timestamp is cut out of toISOString, so it is built from the
UTC view and ends in the Z designator; without it the timestamp is assembled
from the local getters, so it is built from the local view and carries no
designator. -/
def formatDate (date : JSDate) (utc : Bool) : String :=
  if utc then
    isoYear date.utc.year ++ pad date.utc.month ++ pad date.utc.day ++ "T" ++
      pad date.utc.hour ++ pad date.utc.minute ++ pad date.utc.second ++ "Z"
  else
    toString date.loc.year ++ pad date.loc.month ++ pad date.loc.day ++ "T" ++
      pad date.loc.hour ++ pad date.loc.minute ++ pad date.loc.second

/-- Shallow embedding of formatDateOnly (src/src/utils/encode.ts): the
YYYYMMDD date cut out of toISOString, hence the UTC view. -/
def formatDateOnly (date : JSDate) : String :=
  isoYear date.utc.year ++ pad date.utc.month ++ pad date.utc.day

/-- The basic-format value text the external ical.js serializer writes for an
ICalTime: YYYYMMDD for a DATE, the full timestamp for a DATE-TIME — with the
Z designator exactly when the time is UTC, never for a floating time. -/
def icalTimeString : ICalTime → String
  | .date d => isoYear d.year ++ pad d.month ++ pad d.day
  | .dt t true =>
      isoYear t.year ++ pad t.month ++ pad t.day ++ "T" ++
        pad t.hour ++ pad t.minute ++ pad t.second ++ "Z"
  | .dt t false =>
      isoYear t.year ++ pad t.month ++ pad t.day ++ "T" ++
        pad t.hour ++ pad t.minute ++ pad t.second

/-- The iCalendar property line the external serializer writes for a DTSTART
or DTEND property: the name, a VALUE=DATE parameter for DATE values, the TZID
parameter when the property carries one, then the value text.  Whether the
timestamp ends in the Z designator is decided by the value alone (its zone),
not by the presence of a TZID parameter. -/
def dtPropertyLine (name : String) (p : TimeProp) : String :=
  name ++
    (match p.time with
     | .date _ => ";VALUE=DATE"
     | .dt _ _ => "") ++
    (match p.tzid with
     | some z => ";TZID=" ++ z
     | none => "") ++
    ":" ++ icalTimeString p.time

/-- An HTTP PUT request as issued by the client: target and headers; the body
is the built iCalendar document. -/
structure PutRequest where
  url : String
  headers : List (String × String)
deriving DecidableEq, Repr

/-- The server behaviour one createItem call observes: the PUT response
status, its optional ETag header, and the change-tag served by the follow-up
read. -/
structure PutServer where
  putStatus : Nat
  etagHeader : Option String
  ctagAfter : String
deriving DecidableEq, Repr

/-- Result record of a successful createItem call. -/
structure WriteResult where
  uid : String
  href : String
  etag : String
  newCtag : String
deriving DecidableEq, Repr

/-- Outcome of a create call: the resolved value or the thrown error
message. -/
inductive WriteOutcome where
  | ok (r : WriteResult)
  | err (msg : String)
deriving DecidableEq, Repr

/-- JavaScript itemType[0].toUpperCase() + itemType.slice(1), as used in the
createItem and updateItem error messages. -/
def capitalizeFirst (s : String) : String :=
  match s.data with
  | [] => ""
  | c :: cs => String.mk (c.toUpper :: cs)

/-- JavaScript String.prototype.startsWith, modelled on the character
sequence. -/
def jsStartsWith (s p : String) : Bool :=
  p.data.isPrefixOf s.data

/-- JavaScript String.prototype.endsWith, modelled on the character
sequence. -/
def jsEndsWith (s p : String) : Bool :=
  p.data.isSuffixOf s.data

/-- JavaScript String.prototype.trim: whitespace removed from both ends. -/
def jsTrim (s : String) : String :=
  String.mk (((s.data.dropWhile Char.isWhitespace).reverse.dropWhile
    Char.isWhitespace).reverse)

/-- Drop the first n characters (String.prototype.slice from n). -/
def jsDrop (s : String) (n : Nat) : String :=
  String.mk (s.data.drop n)

/-- Drop the last character (String.prototype.slice to minus one). -/
def jsDropLast (s : String) : String :=
  String.mk s.data.dropLast

/-- The PUT request createItem issues: href derived as calendarUrl/uid.ics
after stripping one trailing slash, uid freshly generated (uuidv4, supplied
here as genUid) unless the caller passed a truthy one, and exactly two
headers: the content type and the If-None-Match star precondition. -/
def createItemRequest (genUid calendarUrl : String) (uidData : Option String) : PutRequest :=
  let uid :=
    match uidData with
    | some u => if u = "" then genUid else u
    | none => genUid
  let calUrl := if jsEndsWith calendarUrl "/" then jsDropLast calendarUrl else calendarUrl
  { url := calUrl ++ "/" ++ uid ++ ".ics"
  , headers := [("Content-Type", "text/calendar; charset=utf-8"), ("If-None-Match", "*")] }

/-- Shallow embedding of CalDAVClient.createItem (part_002): throws on a
missing calendar URL, resolves on 201 or 204 with the response ETag (empty
when the server omits it) and a freshly read change-tag, rethrows a 412
precondition failure as the uid-collision conflict error, and wraps any other
failure generically (the model keeps the fixed prefix of that message). -/
def createItem (srv : PutServer) (genUid calendarUrl : String) (uidData : Option String)
    (itemType : String) : WriteOutcome :=
  if calendarUrl = "" then
    .err ("Calendar URL is required to create a " ++ itemType ++ ".")
  else
    let uid :=
      match uidData with
      | some u => if u = "" then genUid else u
      | none => genUid
    let calUrl := if jsEndsWith calendarUrl "/" then jsDropLast calendarUrl else calendarUrl
    if srv.putStatus = 201 ∨ srv.putStatus = 204 then
      .ok { uid := uid, href := calUrl ++ "/" ++ uid ++ ".ics"
          , etag := srv.etagHeader.getD "", newCtag := srv.ctagAfter }
    else if srv.putStatus = 412 then
      .err (capitalizeFirst itemType ++ " with the specified uid already exists.")
    else
      .err ("Failed to create " ++ itemType ++ ".")

/-- The replace of one leading weak-validator marker, etag.replace with the
anchored W-slash pattern: two characters dropped when they match. -/
def stripWeak (s : String) : String :=
  if jsStartsWith s "W/" then jsDrop s 2 else s

/-- Shallow embedding of CalDAVClient.isWeak: starts with the weak marker
(the quoted variant is subsumed by the bare one). -/
def isWeak (etag : Option String) : Bool :=
  match etag with
  | some s => jsStartsWith s "W/\"" || jsStartsWith s "W/"
  | none => false

/-- The header list of the PUT issued by CalDAVClient.updateItem (part_002):
the content type always; If-Match exactly when the item etag, stripped of one
leading weak marker and trimmed, is truthy and the isWeak test on that
stripped value fails (the conditional object spread). -/
def updateItemHeaders (itemEtag : Option String) : List (String × String) :=
  let ifMatch := itemEtag.map (fun e => jsTrim (stripWeak e))
  let ifMatchValue : Option String := if isWeak ifMatch then none else ifMatch
  [("Content-Type", "text/calendar; charset=utf-8")] ++
    (match ifMatchValue with
     | some v => if v = "" then [] else [("If-Match", v)]
     | none => [])

/-- The PUT request updateItem issues: the item href with the computed
headers. -/
def updateItemRequest (href : String) (itemEtag : Option String) : PutRequest :=
  { url := href, headers := updateItemHeaders itemEtag }

/-- A well-formed sample multistatus entry holding one timed VEVENT. -/
def sampleEntryA : MSEntry :=
  ⟨some "/cal/a.ics", some "\"a\"",
    some (.parsed [⟨some "a", none,
      some ⟨.dt ⟨2024, 1, 1, 8, 0, 0⟩ true, none⟩,
      some ⟨.dt ⟨2024, 1, 1, 9, 0, 0⟩ true, none⟩,
      some "A", none, none, none, []⟩])⟩

/-- A sample multistatus entry whose calendar document fails ICAL.parse. -/
def sampleEntryBad : MSEntry :=
  ⟨some "/cal/bad.ics", some "\"b\"", some .malformed⟩

/-- A second well-formed sample multistatus entry. -/
def sampleEntryC : MSEntry :=
  ⟨some "/cal/c.ics", some "\"c\"",
    some (.parsed [⟨some "c", none,
      some ⟨.dt ⟨2024, 1, 2, 8, 0, 0⟩ true, none⟩,
      some ⟨.dt ⟨2024, 1, 2, 9, 0, 0⟩ true, none⟩,
      some "C", none, none, none, []⟩])⟩

/-- A well-formed sample multistatus entry holding one VTODO. -/
def sampleTodoEntry : TodoMSEntry :=
  ⟨some "/cal/t1.ics", some "\"t1\"",
    some (.parsed [⟨some "t1", some "Milk", none, none, none, none, none, none, []⟩])⟩

/-- A sample multistatus todo entry whose calendar document fails
ICAL.parse. -/
def sampleTodoEntryBad : TodoMSEntry :=
  ⟨some "/cal/tbad.ics", some "\"tb\"", some .malformed⟩

/-- A second well-formed sample multistatus todo entry, holding two VTODOs. -/
def sampleTodoEntryC : TodoMSEntry :=
  ⟨some "/cal/t2.ics", some "\"t2\"",
    some (.parsed [⟨some "t2", some "Eggs", none, none, none, none, none, none, []⟩,
      ⟨some "t3", none, none, none, none, none, none, none, []⟩])⟩

lemma mapHas_iff {l : List EventRef} {h : String} :
    mapHas l h = true ↔ ∃ r ∈ l, r.href = h := by
  simp [mapHas]

lemma mapGet_eq_of_mem {l : List EventRef} (hnd : (l.map EventRef.href).Nodup)
    {r : EventRef} (hr : r ∈ l) : mapGet l r.href = some r.etag := by
  have hex : (l.reverse.find? (fun x => x.href == r.href)).isSome := by
    rw [List.find?_isSome]
    exact ⟨r, List.mem_reverse.mpr hr, by simp⟩
  obtain ⟨f, hf⟩ := Option.isSome_iff_exists.mp hex
  have hfl : f ∈ l := List.mem_reverse.mp (List.mem_of_find?_eq_some hf)
  have hpred : f.href = r.href := by
    have := List.find?_some hf
    simpa using this
  have hfr : f = r := List.inj_on_of_nodup_map hnd hfl hr hpred
  simp [mapGet, hf, hfr]

lemma mem_diffNewUpdated_fst {L R : List EventRef} {h : String} :
    h ∈ (diffNewUpdated L R).1 ↔ ∃ r ∈ R, r.href = h ∧ ¬ (mapHas L r.href = true) := by
  induction R with
  | nil => simp [diffNewUpdated]
  | cons r rs ih =>
    simp only [diffNewUpdated]
    by_cases hc : mapHas L r.href = true
    · rw [if_neg (not_not_intro hc)]
      by_cases hg : mapGet L r.href = some r.etag
      · rw [if_neg (not_not_intro hg)]
        rw [ih]
        constructor
        · rintro ⟨x, hx, hxh, hxm⟩; exact ⟨x, by simp [hx], hxh, hxm⟩
        · rintro ⟨x, hx, hxh, hxm⟩
          rcases List.mem_cons.mp hx with rfl | hx
          · exact absurd hc hxm
          · exact ⟨x, hx, hxh, hxm⟩
      · rw [if_pos hg]
        rw [ih]
        constructor
        · rintro ⟨x, hx, hxh, hxm⟩; exact ⟨x, by simp [hx], hxh, hxm⟩
        · rintro ⟨x, hx, hxh, hxm⟩
          rcases List.mem_cons.mp hx with rfl | hx
          · exact absurd hc hxm
          · exact ⟨x, hx, hxh, hxm⟩
    · rw [if_pos hc]
      simp only [List.mem_cons]
      rw [ih]
      constructor
      · rintro (rfl | ⟨x, hx, hxh, hxm⟩)
        · exact ⟨r, by simp, rfl, hc⟩
        · exact ⟨x, by simp [hx], hxh, hxm⟩
      · rintro ⟨x, hx, hxh, hxm⟩
        rcases hx with rfl | hx
        · exact Or.inl hxh.symm
        · exact Or.inr ⟨x, hx, hxh, hxm⟩

lemma mem_diffNewUpdated_snd {L R : List EventRef} {h : String} :
    h ∈ (diffNewUpdated L R).2 ↔
      ∃ r ∈ R, r.href = h ∧ mapHas L r.href = true ∧ ¬ (mapGet L r.href = some r.etag) := by
  induction R with
  | nil => simp [diffNewUpdated]
  | cons r rs ih =>
    simp only [diffNewUpdated]
    by_cases hc : mapHas L r.href = true
    · rw [if_neg (not_not_intro hc)]
      by_cases hg : mapGet L r.href = some r.etag
      · rw [if_neg (not_not_intro hg)]
        rw [ih]
        constructor
        · rintro ⟨x, hx, hxh, hxm, hxg⟩; exact ⟨x, by simp [hx], hxh, hxm, hxg⟩
        · rintro ⟨x, hx, hxh, hxm, hxg⟩
          rcases List.mem_cons.mp hx with rfl | hx
          · exact absurd hg hxg
          · exact ⟨x, hx, hxh, hxm, hxg⟩
      · rw [if_pos hg]
        simp only [List.mem_cons]
        rw [ih]
        constructor
        · rintro (rfl | ⟨x, hx, hxh, hxm, hxg⟩)
          · exact ⟨r, by simp, rfl, hc, hg⟩
          · exact ⟨x, by simp [hx], hxh, hxm, hxg⟩
        · rintro ⟨x, hx, hxh, hxm, hxg⟩
          rcases hx with rfl | hx
          · exact Or.inl hxh.symm
          · exact Or.inr ⟨x, hx, hxh, hxm, hxg⟩
    · rw [if_pos hc]
      rw [ih]
      constructor
      · rintro ⟨x, hx, hxh, hxm, hxg⟩; exact ⟨x, by simp [hx], hxh, hxm, hxg⟩
      · rintro ⟨x, hx, hxh, hxm, hxg⟩
        rcases List.mem_cons.mp hx with rfl | hx
        · exact absurd hxm hc
        · exact ⟨x, hx, hxh, hxm, hxg⟩

lemma mem_diffDeleted {R L : List EventRef} {h : String} :
    h ∈ diffDeleted R L ↔ ∃ l ∈ L, l.href = h ∧ ¬ (mapHas R l.href = true) := by
  induction L with
  | nil => simp [diffDeleted]
  | cons x xs ih =>
    simp only [diffDeleted]
    by_cases hc : mapHas R x.href = true
    · rw [if_neg (not_not_intro hc)]
      rw [ih]
      constructor
      · rintro ⟨y, hy, hyh, hym⟩; exact ⟨y, by simp [hy], hyh, hym⟩
      · rintro ⟨y, hy, hyh, hym⟩
        rcases List.mem_cons.mp hy with rfl | hy
        · exact absurd hc hym
        · exact ⟨y, hy, hyh, hym⟩
    · rw [if_pos hc]
      simp only [List.mem_cons]
      rw [ih]
      constructor
      · rintro (rfl | ⟨y, hy, hyh, hym⟩)
        · exact ⟨x, by simp, rfl, hc⟩
        · exact ⟨y, by simp [hy], hyh, hym⟩
      · rintro ⟨y, hy, hyh, hym⟩
        rcases hy with rfl | hy
        · exact Or.inl hyh.symm
        · exact Or.inr ⟨y, hy, hyh, hym⟩

/-- C1.  For every remote reference list R and local reference list L fed to
the diff phase (diffRefs, used by syncChanges once the change-tags differ),
with hrefs forming sets: every href in R and not in L is in the new list;
every href in L and not in R is in the deleted list; every href in both whose
entity tags differ is in the updated list; an href in both with equal tags is
in no list; and no href lands in more than one of the three lists. -/
theorem diffRefs_partition (R L : List EventRef)
    (hR : (R.map EventRef.href).Nodup) (hL : (L.map EventRef.href).Nodup)
    (h : String) :
    (((∃ r ∈ R, r.href = h) ∧ ¬ (∃ l ∈ L, l.href = h)) → h ∈ (diffRefs R L).newItems) ∧
    (((∃ l ∈ L, l.href = h) ∧ ¬ (∃ r ∈ R, r.href = h)) → h ∈ (diffRefs R L).deletedItems) ∧
    (∀ r ∈ R, ∀ l ∈ L, r.href = h → l.href = h → r.etag ≠ l.etag →
        h ∈ (diffRefs R L).updatedItems) ∧
    (∀ r ∈ R, ∀ l ∈ L, r.href = h → l.href = h → r.etag = l.etag →
        h ∉ (diffRefs R L).newItems ∧ h ∉ (diffRefs R L).updatedItems ∧
        h ∉ (diffRefs R L).deletedItems) ∧
    (h ∈ (diffRefs R L).newItems →
        h ∉ (diffRefs R L).updatedItems ∧ h ∉ (diffRefs R L).deletedItems) ∧
    (h ∈ (diffRefs R L).updatedItems → h ∉ (diffRefs R L).deletedItems) := by
  simp only [diffRefs]
  refine ⟨?_, ?_, ?_, ?_, ?_, ?_⟩
  · rintro ⟨⟨r, hr, rfl⟩, hnl⟩
    exact mem_diffNewUpdated_fst.mpr
      ⟨r, hr, rfl, fun hhas => hnl (mapHas_iff.mp hhas)⟩
  · rintro ⟨⟨l, hl, rfl⟩, hnr⟩
    exact mem_diffDeleted.mpr
      ⟨l, hl, rfl, fun hhas => hnr (mapHas_iff.mp hhas)⟩
  · rintro r hr l hl rfl hlh hne
    refine mem_diffNewUpdated_snd.mpr ⟨r, hr, rfl, mapHas_iff.mpr ⟨l, hl, hlh⟩, ?_⟩
    have hget : mapGet L l.href = some l.etag := mapGet_eq_of_mem hL hl
    rw [hlh] at hget
    rw [hget]
    intro hcon
    exact hne (Option.some_injective _ hcon).symm
  · rintro r hr l hl rfl hlh heq
    refine ⟨?_, ?_, ?_⟩
    · intro hmem
      obtain ⟨x, hx, hxh, hxm⟩ := mem_diffNewUpdated_fst.mp hmem
      exact hxm (by rw [hxh]; exact mapHas_iff.mpr ⟨l, hl, hlh⟩)
    · intro hmem
      obtain ⟨x, hx, hxh, _, hxg⟩ := mem_diffNewUpdated_snd.mp hmem
      have hxr : x = r := List.inj_on_of_nodup_map hR hx hr hxh
      subst hxr
      have hget : mapGet L l.href = some l.etag := mapGet_eq_of_mem hL hl
      rw [hlh] at hget
      rw [hxh] at hxg
      exact hxg (by rw [hget, heq])
    · intro hmem
      obtain ⟨y, hy, hyh, hym⟩ := mem_diffDeleted.mp hmem
      exact hym (by rw [hyh]; exact mapHas_iff.mpr ⟨r, hr, rfl⟩)
  · intro hmem
    obtain ⟨x, hx, hxh, hxm⟩ := mem_diffNewUpdated_fst.mp hmem
    refine ⟨?_, ?_⟩
    · intro hmem2
      obtain ⟨y, hy, hyh, hym, _⟩ := mem_diffNewUpdated_snd.mp hmem2
      rw [hxh] at hxm
      rw [hyh] at hym
      exact hxm hym
    · intro hmem2
      obtain ⟨y, hy, hyh, hym⟩ := mem_diffDeleted.mp hmem2
      exact hym (by rw [hyh, ← hxh]; exact mapHas_iff.mpr ⟨x, hx, rfl⟩)
  · intro hmem
    obtain ⟨x, hx, hxh, _, _⟩ := mem_diffNewUpdated_snd.mp hmem
    intro hmem2
    obtain ⟨y, hy, hyh, hym⟩ := mem_diffDeleted.mp hmem2
    exact hym (by rw [hyh, ← hxh]; exact mapHas_iff.mpr ⟨x, hx, rfl⟩)

/-- Witness for C1 at the specification scenario: local = a:1, b:2 and
remote = a:1, b:9, c:5.  Instantiating the theorem at href b yields membership
of b in the updated list and its absence from the other lists; the diff result
itself evaluates to new = c, updated = b, deleted = empty. -/
theorem diffRefs_partition_witness :
    (([⟨"a", "1"⟩, ⟨"b", "9"⟩, ⟨"c", "5"⟩] : List EventRef).map EventRef.href).Nodup ∧
    (([⟨"a", "1"⟩, ⟨"b", "2"⟩] : List EventRef).map EventRef.href).Nodup ∧
    ("b" ∈ (diffRefs [⟨"a", "1"⟩, ⟨"b", "9"⟩, ⟨"c", "5"⟩] [⟨"a", "1"⟩, ⟨"b", "2"⟩]).updatedItems) ∧
    diffRefs [⟨"a", "1"⟩, ⟨"b", "9"⟩, ⟨"c", "5"⟩] [⟨"a", "1"⟩, ⟨"b", "2"⟩] =
      { newItems := ["c"], updatedItems := ["b"], deletedItems := [] } := by
  refine ⟨by decide, by decide, ?_, by decide⟩
  exact (diffRefs_partition [⟨"a", "1"⟩, ⟨"b", "9"⟩, ⟨"c", "5"⟩] [⟨"a", "1"⟩, ⟨"b", "2"⟩]
      (by decide) (by decide) "b").2.2.1 ⟨"b", "9"⟩ (by decide) ⟨"b", "2"⟩ (by decide)
      rfl rfl (by decide)

/-- C2.  When the caller-supplied change-tag is empty or equals the freshly
fetched remote change-tag, syncChanges (and syncTodoChanges) return changed
= false, the fresh remote tag and three empty href lists, and issue only the
change-tag read: no item-reference fetch is performed. -/
theorem syncChanges_short_circuit (srv : SyncServer) (ctag : String)
    (localEvents localTodos : List EventRef)
    (h : ctag = "" ∨ ctag = srv.ctag) :
    syncChanges srv ctag localEvents =
      ({ changed := false, newCtag := srv.ctag
       , newEvents := [], updatedEvents := [], deletedEvents := [] },
       [NetCall.getCtagCall]) ∧
    syncTodoChanges srv ctag localTodos =
      ({ changed := false, newCtag := srv.ctag
       , newTodos := [], updatedTodos := [], deletedTodos := [] },
       [NetCall.getCtagCall]) := by
  constructor
  · simp only [syncChanges]
    rw [if_pos h]
  · simp only [syncTodoChanges]
    rw [if_pos h]

/-- Witness for C2 at the specification scenario: local tag abc, remote tag
abc. -/
theorem syncChanges_short_circuit_witness :
    (("abc" : String) = "" ∨ ("abc" : String) = (SyncServer.mk "abc" [⟨"x", "1"⟩] []).ctag) ∧
    syncChanges (SyncServer.mk "abc" [⟨"x", "1"⟩] []) "abc" [] =
      ({ changed := false, newCtag := "abc"
       , newEvents := [], updatedEvents := [], deletedEvents := [] },
       [NetCall.getCtagCall]) ∧
    syncTodoChanges (SyncServer.mk "abc" [⟨"x", "1"⟩] []) "abc" [] =
      ({ changed := false, newCtag := "abc"
       , newTodos := [], updatedTodos := [], deletedTodos := [] },
       [NetCall.getCtagCall]) := by
  have hmain := syncChanges_short_circuit (SyncServer.mk "abc" [⟨"x", "1"⟩] [])
    "abc" [] [] (Or.inr rfl)
  exact ⟨Or.inr rfl, hmain.1, hmain.2⟩

lemma parseRecurrence_encodeRRule (tz : TZModel) (rr : RecurrenceRule)
    (hint : ∃ k, rr.interval = some k ∧ k ≠ 0) (hcnt : rr.count ≠ some 0) :
    sameRecurrence (some rr) (some (parseRecurrence tz (encodeRRule rr))) := by
  obtain ⟨k, hk, hk0⟩ := hint
  refine ⟨rfl, ?_, ?_, ?_, rfl, rfl, rfl⟩
  · simp [parseRecurrence, encodeRRule, truthyInt, hk, hk0]
  · rcases hc : rr.count with _ | c
    · simp [parseRecurrence, encodeRRule, truthyInt, hc]
    · have hc0 : ¬ c = 0 := by
        intro h0
        exact hcnt (by rw [hc, h0])
      simp [parseRecurrence, encodeRRule, truthyInt, hc, hc0]
  · rcases hu : rr.untilDate with _ | u
    · simp [parseRecurrence, encodeRRule, hu]
    · simp [parseRecurrence, encodeRRule, hu]

/-- C3, amended.  Decoding the encoded form of an event item reproduces uid,
summary, start and end at serialization precision, the wholeDay flag, and the
recurrence fields, provided the summary is non-empty (an empty one decodes to
the fixed placeholder) and the recurrence rule, when present, carries an
explicit non-zero interval (an omitted interval is read back as the serializer
default 1) and no zero count (a zero count is dropped on both sides but read
back as absent).  Entity tag and href are excluded.  For whole-day events the
preserved boundary is the calendar date (UTC date in, runtime-local date out);
for timed events the UTC instants agree exactly at second precision. -/
theorem buildICSData_parseEvents_roundTrip
    (tz : TZModel) (now : DT) (e : Event) (uid etag : String) (href : Option String)
    (hsum : e.summary ≠ "")
    (hrr : ∀ rr, e.recurrenceRule = some rr →
        (∃ k, rr.interval = some k ∧ k ≠ 0) ∧ rr.count ≠ some 0) :
    (parseEvents tz (some [⟨href, some etag, some (.parsed [buildICSData now e uid])⟩])).length = 1 ∧
    ∀ ev ∈ parseEvents tz (some [⟨href, some etag, some (.parsed [buildICSData now e uid])⟩]),
      ev.uid = some uid ∧
      ev.summary = e.summary ∧
      (ev.wholeDay = true ↔ e.wholeDay = some true) ∧
      (e.wholeDay = some true →
        dateOfDT ev.start.loc = dateOfDT e.start.utc ∧
        dateOfDT ev.endTime.loc = dateOfDT e.endTime.utc) ∧
      (¬ e.wholeDay = some true →
        ev.start.utc = e.start.utc ∧ ev.endTime.utc = e.endTime.utc) ∧
      sameRecurrence e.recurrenceRule ev.recurrenceRule := by
  have hrec : sameRecurrence e.recurrenceRule
      ((buildICSData now e uid).rrule.map (parseRecurrence tz)) := by
    rcases hr : e.recurrenceRule with _ | rr
    · simp [buildICSData, hr, sameRecurrence]
    · obtain ⟨hint, hcnt⟩ := hrr rr hr
      simpa [buildICSData, hr] using parseRecurrence_encodeRRule tz rr hint hcnt
  constructor
  · simp [parseEvents, entryEvents, decodeVEvents, decodeVEvent, buildICSData]
  · intro ev hev
    by_cases hwd : e.wholeDay = some true
    · simp only [parseEvents, entryEvents, List.flatMap_cons, List.flatMap_nil,
        List.append_nil, decodeVEvents, decodeVEvent, buildICSData, if_pos hwd,
        Option.getD_some, List.mem_singleton] at hev
      subst hev
      refine ⟨rfl, ?_, ?_, ?_, ?_, ?_⟩
      · simp [hsum]
      · simp [hwd]
      · intro _
        exact ⟨by simp [icalToJSDate, dateOfDT], by simp [icalToJSDate, dateOfDT]⟩
      · intro hcon
        exact absurd hwd hcon
      · simpa [buildICSData, if_pos hwd] using hrec
    · simp only [parseEvents, entryEvents, List.flatMap_cons, List.flatMap_nil,
        List.append_nil, decodeVEvents, decodeVEvent, buildICSData, if_neg hwd,
        Option.getD_some, List.mem_singleton] at hev
      subst hev
      refine ⟨rfl, ?_, ?_, ?_, ?_, ?_⟩
      · simp [hsum]
      · simp [hwd]
      · intro hcon
        exact absurd hcon hwd
      · intro _
        exact ⟨by simp [icalToJSDate], by simp [icalToJSDate]⟩
      · simpa [buildICSData, if_neg hwd] using hrec

/-- Counterexample to C3 as stated: an event whose summary is the empty
string.  Decoding its encoded form yields the fixed placeholder Untitled
Event, not the original summary, so the round trip does not hold for every
event item. -/
theorem buildICSData_parseEvents_roundTrip_counterexample :
    (parseEvents (TZModel.mk id id)
        (some [⟨some "/cal/u.ics", some "\"e1\"",
          some (.parsed [buildICSData ⟨2024, 1, 1, 0, 0, 0⟩
            { uid := none, summary := ""
            , start := ⟨⟨2024, 5, 1, 9, 0, 0⟩, ⟨2024, 5, 1, 9, 0, 0⟩⟩
            , endTime := ⟨⟨2024, 5, 1, 10, 0, 0⟩, ⟨2024, 5, 1, 10, 0, 0⟩⟩
            , description := none, location := none, wholeDay := none
            , recurrenceRule := none, startTzid := none, endTzid := none
            , alarms := none } "u"])⟩])).map (fun ev => ev.summary) =
      ["Untitled Event"] ∧
    ¬ ((parseEvents (TZModel.mk id id)
        (some [⟨some "/cal/u.ics", some "\"e1\"",
          some (.parsed [buildICSData ⟨2024, 1, 1, 0, 0, 0⟩
            { uid := none, summary := ""
            , start := ⟨⟨2024, 5, 1, 9, 0, 0⟩, ⟨2024, 5, 1, 9, 0, 0⟩⟩
            , endTime := ⟨⟨2024, 5, 1, 10, 0, 0⟩, ⟨2024, 5, 1, 10, 0, 0⟩⟩
            , description := none, location := none, wholeDay := none
            , recurrenceRule := none, startTzid := none, endTzid := none
            , alarms := none } "u"])⟩])).map (fun ev => ev.summary) = [""]) := by
  constructor
  · rfl
  · intro hcon
    simp [parseEvents, entryEvents, decodeVEvents, decodeVEvent, buildICSData] at hcon

/-- Witness for the amended C3 at a concrete timed event with a full
recurrence rule, instantiated at a non-UTC runtime timezone model. -/
theorem buildICSData_parseEvents_roundTrip_witness :
    (("Team sync" : String) ≠ "") ∧
    ((parseEvents
        (TZModel.mk (fun t => { t with hour := t.hour + 2 }) (fun t => { t with hour := t.hour - 2 }))
        (some [⟨some "/cal/w.ics", some "\"e9\"",
          some (.parsed [buildICSData ⟨2024, 1, 1, 0, 0, 0⟩
            { uid := none, summary := "Team sync"
            , start := ⟨⟨2024, 5, 1, 9, 0, 0⟩, ⟨2024, 5, 1, 11, 0, 0⟩⟩
            , endTime := ⟨⟨2024, 5, 1, 10, 0, 0⟩, ⟨2024, 5, 1, 12, 0, 0⟩⟩
            , description := some "weekly", location := none, wholeDay := none
            , recurrenceRule := some
                { freq := some .WEEKLY, interval := some 2, count := some 5
                , untilDate := none, byday := some ["MO", "WE"]
                , bymonthday := none, bymonth := none }
            , startTzid := none, endTzid := none
            , alarms := none } "w"])⟩])).length = 1 ∧
      ∀ ev ∈ parseEvents
        (TZModel.mk (fun t => { t with hour := t.hour + 2 }) (fun t => { t with hour := t.hour - 2 }))
        (some [⟨some "/cal/w.ics", some "\"e9\"",
          some (.parsed [buildICSData ⟨2024, 1, 1, 0, 0, 0⟩
            { uid := none, summary := "Team sync"
            , start := ⟨⟨2024, 5, 1, 9, 0, 0⟩, ⟨2024, 5, 1, 11, 0, 0⟩⟩
            , endTime := ⟨⟨2024, 5, 1, 10, 0, 0⟩, ⟨2024, 5, 1, 12, 0, 0⟩⟩
            , description := some "weekly", location := none, wholeDay := none
            , recurrenceRule := some
                { freq := some .WEEKLY, interval := some 2, count := some 5
                , untilDate := none, byday := some ["MO", "WE"]
                , bymonthday := none, bymonth := none }
            , startTzid := none, endTzid := none
            , alarms := none } "w"])⟩]),
        ev.uid = some "w" ∧ ev.summary = "Team sync" ∧
        (ev.wholeDay = true ↔ (none : Option Bool) = some true) ∧
        ((none : Option Bool) = some true →
          dateOfDT ev.start.loc = dateOfDT ⟨2024, 5, 1, 9, 0, 0⟩ ∧
          dateOfDT ev.endTime.loc = dateOfDT ⟨2024, 5, 1, 10, 0, 0⟩) ∧
        (¬ (none : Option Bool) = some true →
          ev.start.utc = ⟨2024, 5, 1, 9, 0, 0⟩ ∧ ev.endTime.utc = ⟨2024, 5, 1, 10, 0, 0⟩) ∧
        sameRecurrence
          (some { freq := some .WEEKLY, interval := some 2, count := some 5
                , untilDate := none, byday := some ["MO", "WE"]
                , bymonthday := none, bymonth := none })
          ev.recurrenceRule) := by
  refine ⟨by decide, ?_⟩
  exact buildICSData_parseEvents_roundTrip
    (TZModel.mk (fun t => { t with hour := t.hour + 2 }) (fun t => { t with hour := t.hour - 2 }))
    ⟨2024, 1, 1, 0, 0, 0⟩
    { uid := none, summary := "Team sync"
    , start := ⟨⟨2024, 5, 1, 9, 0, 0⟩, ⟨2024, 5, 1, 11, 0, 0⟩⟩
    , endTime := ⟨⟨2024, 5, 1, 10, 0, 0⟩, ⟨2024, 5, 1, 12, 0, 0⟩⟩
    , description := some "weekly", location := none, wholeDay := none
    , recurrenceRule := some
        { freq := some .WEEKLY, interval := some 2, count := some 5
        , untilDate := none, byday := some ["MO", "WE"]
        , bymonthday := none, bymonth := none }
    , startTzid := none, endTzid := none
    , alarms := none }
    "w" "\"e9\"" (some "/cal/w.ics")
    (by decide)
    (by
      intro rr hr
      cases hr
      exact ⟨⟨2, rfl, by decide⟩, by decide⟩)

/-- C5.  A decoded event whose DTSTART value is date-only gets wholeDay = true
and its end is the document's DTEND value passed through toJSDate unchanged:
no one-day subtraction, so the decoded end is local midnight of exactly the
date written in the document.  Consequently an event encoded with wholeDay
set decodes back with wholeDay set and the same start and end date
boundaries. -/
theorem parseEvents_wholeDayEnd_passthrough :
    (∀ (tz : TZModel) (etag : String) (href : Option String) (v : VEvent)
        (sp ep : TimeProp) (d d2 : DateOnly),
        v.dtstart = some sp → sp.time = .date d → v.dtend = some ep → ep.time = .date d2 →
        ∃ ev, decodeVEvent tz etag href v = some ev ∧ ev.wholeDay = true ∧
          ev.endTime = icalToJSDate tz (.date d2) ∧
          ev.endTime.loc = ⟨d2.year, d2.month, d2.day, 0, 0, 0⟩) ∧
    (∀ (tz : TZModel) (now : DT) (e : Event) (uid etag : String) (href : Option String),
        e.wholeDay = some true →
        ∀ ev ∈ parseEvents tz (some [⟨href, some etag, some (.parsed [buildICSData now e uid])⟩]),
          ev.wholeDay = true ∧
          dateOfDT ev.start.loc = dateOfDT e.start.utc ∧
          dateOfDT ev.endTime.loc = dateOfDT e.endTime.utc) := by
  constructor
  · intro tz etag href v sp ep d d2 hs hsd he hed
    obtain ⟨vu, vst, vds, vde, vsu, vdesc, vloc, vrr, val⟩ := v
    obtain ⟨spt, sptz⟩ := sp
    obtain ⟨ept, eptz⟩ := ep
    simp only at hs he
    simp only [TimeProp.mk.injEq] at hsd hed
    subst hs he hsd hed
    exact ⟨_, rfl, rfl, rfl, rfl⟩
  · intro tz now e uid etag href hwd ev hev
    simp only [parseEvents, entryEvents, List.flatMap_cons, List.flatMap_nil,
      List.append_nil, decodeVEvents, decodeVEvent, buildICSData, if_pos hwd,
      Option.getD_some, List.mem_singleton] at hev
    subst hev
    exact ⟨rfl, by simp [icalToJSDate, dateOfDT], by simp [icalToJSDate, dateOfDT]⟩

/-- Witness for C5: a document with DATE-valued DTSTART and DTEND, and an
encoded whole-day event, both at a non-UTC runtime timezone model. -/
theorem parseEvents_wholeDayEnd_passthrough_witness :
    ((VEvent.mk (some "u") none
        (some ⟨.date ⟨2024, 7, 1⟩, none⟩) (some ⟨.date ⟨2024, 7, 3⟩, none⟩)
        (some "trip") none none none []).dtstart = some ⟨.date ⟨2024, 7, 1⟩, none⟩) ∧
    (∃ ev, decodeVEvent (TZModel.mk (fun t => { t with hour := t.hour + 2 })
          (fun t => { t with hour := t.hour - 2 })) "\"t\"" (some "/cal/t.ics")
        (VEvent.mk (some "u") none
          (some ⟨.date ⟨2024, 7, 1⟩, none⟩) (some ⟨.date ⟨2024, 7, 3⟩, none⟩)
          (some "trip") none none none []) = some ev ∧
      ev.wholeDay = true ∧
      ev.endTime = icalToJSDate (TZModel.mk (fun t => { t with hour := t.hour + 2 })
          (fun t => { t with hour := t.hour - 2 })) (.date ⟨2024, 7, 3⟩) ∧
      ev.endTime.loc = ⟨2024, 7, 3, 0, 0, 0⟩) := by
  refine ⟨rfl, ?_⟩
  exact parseEvents_wholeDayEnd_passthrough.1
    (TZModel.mk (fun t => { t with hour := t.hour + 2 }) (fun t => { t with hour := t.hour - 2 }))
    "\"t\"" (some "/cal/t.ics")
    (VEvent.mk (some "u") none
      (some ⟨.date ⟨2024, 7, 1⟩, none⟩) (some ⟨.date ⟨2024, 7, 3⟩, none⟩)
      (some "trip") none none none [])
    ⟨.date ⟨2024, 7, 1⟩, none⟩ ⟨.date ⟨2024, 7, 3⟩, none⟩ ⟨2024, 7, 1⟩ ⟨2024, 7, 3⟩
    rfl rfl rfl rfl

/-- C6.  A multistatus entry whose embedded calendar document is malformed
(ICAL.parse throws, caught and logged) or lacks the mandatory component
contributes nothing, while every other entry of the response is still decoded
and returned — for parseEvents and for parseTodos alike: the decode of the
whole response is the concatenation of the decodes around the bad entry, and
both decoders are total Lean functions, so no exception escapes either. -/
theorem parsers_skip_malformed :
    (∀ (tz : TZModel) (xs ys : List MSEntry) (e : MSEntry),
      (e.calendarData = some .malformed ∨ e.calendarData = some (.parsed [])) →
      parseEvents tz (some (xs ++ e :: ys)) =
        parseEvents tz (some xs) ++ parseEvents tz (some ys) ∧
      entryEvents tz e = []) ∧
    (∀ (tz : TZModel) (xs ys : List TodoMSEntry) (e : TodoMSEntry),
      (e.calendarData = some .malformed ∨ e.calendarData = some (.parsed [])) →
      parseTodos tz (some (xs ++ e :: ys)) =
        parseTodos tz (some xs) ++ parseTodos tz (some ys) ∧
      entryTodos tz e = []) := by
  constructor
  · intro tz xs ys e h
    have he : entryEvents tz e = [] := by
      rcases h with h | h <;> simp [entryEvents, h, decodeVEvents]
    exact ⟨by simp [parseEvents, he], he⟩
  · intro tz xs ys e h
    have he : entryTodos tz e = [] := by
      rcases h with h | h <;> simp [entryTodos, h]
    exact ⟨by simp [parseTodos, he], he⟩

/-- Witness for C6: a malformed entry between well-formed entries is skipped
and the neighbours are still decoded, for events and for todos. -/
theorem parsers_skip_malformed_witness :
    (sampleEntryBad.calendarData = some .malformed ∨
      sampleEntryBad.calendarData = some (.parsed [])) ∧
    parseEvents (TZModel.mk id id) (some ([sampleEntryA] ++ sampleEntryBad :: [sampleEntryC])) =
      parseEvents (TZModel.mk id id) (some [sampleEntryA]) ++
      parseEvents (TZModel.mk id id) (some [sampleEntryC]) ∧
    (parseEvents (TZModel.mk id id)
      (some ([sampleEntryA] ++ sampleEntryBad :: [sampleEntryC]))).length = 2 ∧
    (sampleTodoEntryBad.calendarData = some .malformed ∨
      sampleTodoEntryBad.calendarData = some (.parsed [])) ∧
    parseTodos (TZModel.mk id id)
        (some ([sampleTodoEntry] ++ sampleTodoEntryBad :: [sampleTodoEntryC])) =
      parseTodos (TZModel.mk id id) (some [sampleTodoEntry]) ++
      parseTodos (TZModel.mk id id) (some [sampleTodoEntryC]) ∧
    (parseTodos (TZModel.mk id id)
      (some ([sampleTodoEntry] ++ sampleTodoEntryBad :: [sampleTodoEntryC]))).length = 3 := by
  refine ⟨Or.inl rfl, ?_, by decide, Or.inl rfl, ?_, by decide⟩
  · exact (parsers_skip_malformed.1 (TZModel.mk id id)
      [sampleEntryA] [sampleEntryC] sampleEntryBad (Or.inl rfl)).1
  · exact (parsers_skip_malformed.2 (TZModel.mk id id)
      [sampleTodoEntry] [sampleTodoEntryC] sampleTodoEntryBad (Or.inl rfl)).1

/-- C8.  An entry whose parsed document holds several matching subcomponents
decodes to one item per subcomponent, in order — all of them are extracted,
not just the first: for VEVENTs (each carrying a DTSTART, so none aborts the
entry) and for VTODOs (whose decode is unconditional). -/
theorem extracts_all_subcomponents :
    (∀ (tz : TZModel) (href : Option String) (etag : String) (doc : List VEvent),
      (∀ v ∈ doc, (v.dtstart).isSome) →
      (entryEvents tz ⟨href, some etag, some (.parsed doc)⟩).length = doc.length ∧
      (entryEvents tz ⟨href, some etag, some (.parsed doc)⟩).map some =
        doc.map (decodeVEvent tz etag href)) ∧
    (∀ (tz : TZModel) (href : Option String) (etag : String) (doc : List VTodo),
      (entryTodos tz ⟨href, some etag, some (.parsed doc)⟩).length = doc.length ∧
      entryTodos tz ⟨href, some etag, some (.parsed doc)⟩ =
        doc.map (decodeVTodo tz etag href)) := by
  constructor
  · intro tz href etag doc h
    simp only [entryEvents, Option.getD_some]
    induction doc with
    | nil => exact ⟨rfl, rfl⟩
    | cons v vs ih =>
      have hv : (v.dtstart).isSome := h v (by simp)
      obtain ⟨sp, hsp⟩ := Option.isSome_iff_exists.mp hv
      have hdec : ∃ ev, decodeVEvent tz etag href v = some ev := by
        obtain ⟨vu, vst, vds, vde, vsu, vdesc, vloc, vrr, val⟩ := v
        simp only at hsp
        subst hsp
        exact ⟨_, rfl⟩
      obtain ⟨ev, hev⟩ := hdec
      have ihr := ih (fun w hw => h w (by simp [hw]))
      constructor
      · simp only [decodeVEvents, hev, List.length_cons]
        rw [ihr.1]
      · simp only [decodeVEvents, hev, List.map_cons]
        rw [ihr.2]
  · intro tz href etag doc
    exact ⟨by simp [entryTodos], by simp [entryTodos]⟩

/-- Witness for C8: a document with two VEVENTs decodes to two items and a
document with two VTODOs decodes to two items. -/
theorem extracts_all_subcomponents_witness :
    (∀ v ∈ [VEvent.mk (some "a") none
        (some ⟨.dt ⟨2024, 1, 1, 8, 0, 0⟩ true, none⟩)
        (some ⟨.dt ⟨2024, 1, 1, 9, 0, 0⟩ true, none⟩)
        (some "A") none none none [],
      VEvent.mk (some "b") none
        (some ⟨.date ⟨2024, 2, 1⟩, none⟩)
        (some ⟨.date ⟨2024, 2, 2⟩, none⟩)
        (some "B") none none none []], (v.dtstart).isSome) ∧
    (entryEvents (TZModel.mk id id)
      ⟨some "/cal/m.ics", some "\"m\"",
        some (.parsed [VEvent.mk (some "a") none
          (some ⟨.dt ⟨2024, 1, 1, 8, 0, 0⟩ true, none⟩)
          (some ⟨.dt ⟨2024, 1, 1, 9, 0, 0⟩ true, none⟩)
          (some "A") none none none [],
        VEvent.mk (some "b") none
          (some ⟨.date ⟨2024, 2, 1⟩, none⟩)
          (some ⟨.date ⟨2024, 2, 2⟩, none⟩)
          (some "B") none none none []])⟩).length = 2 ∧
    (entryTodos (TZModel.mk id id)
      ⟨some "/cal/n.ics", some "\"n\"",
        some (.parsed [VTodo.mk (some "t2") (some "Eggs") none none none none none none [],
          VTodo.mk (some "t3") none none none none none none none []])⟩).length = 2 := by
  refine ⟨by decide, ?_, ?_⟩
  · exact (extracts_all_subcomponents.1 (TZModel.mk id id) (some "/cal/m.ics") "\"m\""
      [VEvent.mk (some "a") none
        (some ⟨.dt ⟨2024, 1, 1, 8, 0, 0⟩ true, none⟩)
        (some ⟨.dt ⟨2024, 1, 1, 9, 0, 0⟩ true, none⟩)
        (some "A") none none none [],
      VEvent.mk (some "b") none
        (some ⟨.date ⟨2024, 2, 1⟩, none⟩)
        (some ⟨.date ⟨2024, 2, 2⟩, none⟩)
        (some "B") none none none []]
      (by decide)).1
  · exact (extracts_all_subcomponents.2 (TZModel.mk id id) (some "/cal/n.ics") "\"n\""
      [VTodo.mk (some "t2") (some "Eggs") none none none none none none [],
        VTodo.mk (some "t3") none none none none none none none []]).1

/-- C10.  A decoded item whose document has no SUMMARY, or an empty one, gets
the fixed placeholder: Untitled Event in parseEvents and Untitled Todo in
parseTodos; a decoded summary is never the empty string; and in particular the
encode/decode round trip turns an empty summary into the placeholder. -/
theorem decode_summary_placeholder :
    (∀ (tz : TZModel) (etag : String) (href : Option String) (v : VEvent)
        (ev : ParsedEvent), decodeVEvent tz etag href v = some ev →
        ev.summary ≠ "" ∧
          ((v.summary = none ∨ v.summary = some "") → ev.summary = "Untitled Event")) ∧
    (∀ (tz : TZModel) (etag : String) (href : Option String) (t : VTodo),
        (decodeVTodo tz etag href t).summary ≠ "" ∧
          ((t.summary = none ∨ t.summary = some "") →
            (decodeVTodo tz etag href t).summary = "Untitled Todo")) ∧
    (∀ (tz : TZModel) (now : DT) (e : Event) (uid etag : String) (href : Option String),
        e.summary = "" →
        (parseEvents tz (some [⟨href, some etag, some (.parsed [buildICSData now e uid])⟩])).map
            (fun ev => ev.summary) = ["Untitled Event"]) := by
  refine ⟨?_, ?_, ?_⟩
  · intro tz etag href v ev hev
    rcases hds : v.dtstart with _ | sp
    · simp [decodeVEvent, hds] at hev
    · simp only [decodeVEvent, hds] at hev
      have hinj := Option.some.inj hev
      subst hinj
      constructor
      · rcases hsu : v.summary with _ | s
        · simp [hsu]
        · by_cases hse : s = "" <;> simp [hsu, hse]
      · intro hcase
        rcases hcase with hc | hc <;> simp [hc]
  · intro tz etag href t
    constructor
    · simp only [decodeVTodo]
      rcases hsu : t.summary with _ | s
      · simp
      · by_cases hse : s = "" <;> simp [hse]
    · intro hcase
      simp only [decodeVTodo]
      rcases hcase with hc | hc <;> simp [hc]
  · intro tz now e uid etag href hsum
    by_cases hwd : e.wholeDay = some true <;>
      simp [parseEvents, entryEvents, decodeVEvents, decodeVEvent, buildICSData, hwd, hsum]

/-- Witness for C10: a VEVENT without SUMMARY, a VTODO without SUMMARY, and an
encoded event with empty summary, each decoding to the placeholder. -/
theorem decode_summary_placeholder_witness :
    decodeVEvent (TZModel.mk id id) "\"s\"" (some "/cal/s.ics")
        (VEvent.mk (some "s") none
          (some ⟨.dt ⟨2024, 3, 1, 8, 0, 0⟩ true, none⟩)
          (some ⟨.dt ⟨2024, 3, 1, 9, 0, 0⟩ true, none⟩)
          none none none none []) =
      some (ParsedEvent.mk (some "s") "Untitled Event"
        ⟨⟨2024, 3, 1, 8, 0, 0⟩, ⟨2024, 3, 1, 8, 0, 0⟩⟩
        ⟨⟨2024, 3, 1, 9, 0, 0⟩, ⟨2024, 3, 1, 9, 0, 0⟩⟩
        none none "\"s\"" (some "/cal/s.ics") false none none none []) ∧
    (ParsedEvent.mk (some "s") "Untitled Event"
        ⟨⟨2024, 3, 1, 8, 0, 0⟩, ⟨2024, 3, 1, 8, 0, 0⟩⟩
        ⟨⟨2024, 3, 1, 9, 0, 0⟩, ⟨2024, 3, 1, 9, 0, 0⟩⟩
        none none "\"s\"" (some "/cal/s.ics") false none none none []).summary =
      "Untitled Event" ∧
    (decodeVTodo (TZModel.mk id id) "" none
        (VTodo.mk none none none none none none none none [])).summary = "Untitled Todo" ∧
    (parseEvents (TZModel.mk id id)
        (some [⟨some "/cal/e.ics", some "\"e\"",
          some (.parsed [buildICSData ⟨2024, 1, 1, 0, 0, 0⟩
            { uid := none, summary := ""
            , start := ⟨⟨2024, 4, 1, 9, 0, 0⟩, ⟨2024, 4, 1, 9, 0, 0⟩⟩
            , endTime := ⟨⟨2024, 4, 1, 10, 0, 0⟩, ⟨2024, 4, 1, 10, 0, 0⟩⟩
            , description := none, location := none, wholeDay := none
            , recurrenceRule := none, startTzid := none, endTzid := none
            , alarms := none } "u"])⟩])).map (fun ev => ev.summary) =
      ["Untitled Event"] := by
  refine ⟨rfl, ?_, ?_, ?_⟩
  · exact (decode_summary_placeholder.1 (TZModel.mk id id) "\"s\"" (some "/cal/s.ics")
      (VEvent.mk (some "s") none
        (some ⟨.dt ⟨2024, 3, 1, 8, 0, 0⟩ true, none⟩)
        (some ⟨.dt ⟨2024, 3, 1, 9, 0, 0⟩ true, none⟩)
        none none none none [])
      (ParsedEvent.mk (some "s") "Untitled Event"
        ⟨⟨2024, 3, 1, 8, 0, 0⟩, ⟨2024, 3, 1, 8, 0, 0⟩⟩
        ⟨⟨2024, 3, 1, 9, 0, 0⟩, ⟨2024, 3, 1, 9, 0, 0⟩⟩
        none none "\"s\"" (some "/cal/s.ics") false none none none [])
      rfl).2 (Or.inl rfl)
  · exact (decode_summary_placeholder.2.1 (TZModel.mk id id) "" none
      (VTodo.mk none none none none none none none none [])).2 (Or.inl rfl)
  · exact decode_summary_placeholder.2.2 (TZModel.mk id id) ⟨2024, 1, 1, 0, 0, 0⟩
      { uid := none, summary := ""
      , start := ⟨⟨2024, 4, 1, 9, 0, 0⟩, ⟨2024, 4, 1, 9, 0, 0⟩⟩
      , endTime := ⟨⟨2024, 4, 1, 10, 0, 0⟩, ⟨2024, 4, 1, 10, 0, 0⟩⟩
      , description := none, location := none, wholeDay := none
      , recurrenceRule := none, startTzid := none, endTzid := none
      , alarms := none } "u" "\"e\"" (some "/cal/e.ics") rfl

/-- Counterexample to C4 as stated: for the weak entity tag W/ followed by a
quoted value, the update PUT does carry an If-Match header — the code strips
the weak marker first and only then applies the isWeak test, which therefore
fails on the stripped value and lets the header through with the stripped
tag. -/
theorem updateItem_weak_etag_counterexample :
    (jsStartsWith "W/\"abc\"" "W/" = true) ∧
    ((updateItemRequest "/cal/x.ics" (some "W/\"abc\"")).headers.any
        (fun p => p.1 == "If-Match") = true) ∧
    ("If-Match", "\"abc\"") ∈ (updateItemRequest "/cal/x.ics" (some "W/\"abc\"")).headers := by
  refine ⟨by decide, by decide, by decide⟩

/-- C4, amended.  updateItem strips one leading weak-validator marker off the
entity tag and trims it; if the result is non-empty and does not itself still
begin with the weak marker (which after the strip only happens for a doubled
marker), the PUT carries If-Match with that stripped tag — also when the
original tag began with the weak marker; the header is omitted only when the
stripped trimmed value is empty or still weak-prefixed.  A strong tag (no
weak marker) is passed through the strip unchanged, so a trimmed non-empty
strong tag is sent as is. -/
theorem updateItem_ifMatch_header (e : String) :
    (jsTrim (stripWeak e) ≠ "" → isWeak (some (jsTrim (stripWeak e))) = false →
      updateItemHeaders (some e) =
        [("Content-Type", "text/calendar; charset=utf-8"),
         ("If-Match", jsTrim (stripWeak e))]) ∧
    (isWeak (some (jsTrim (stripWeak e))) = true →
      updateItemHeaders (some e) = [("Content-Type", "text/calendar; charset=utf-8")]) ∧
    (jsStartsWith e "W/" = false → stripWeak e = e) := by
  refine ⟨?_, ?_, ?_⟩
  · intro hne hw
    simp [updateItemHeaders, hw, hne]
  · intro hw
    simp [updateItemHeaders, hw]
  · intro hs
    simp [stripWeak, hs]

/-- Witness for the amended C4: a singly weak-prefixed tag is stripped and
sent in If-Match; a doubly prefixed tag still tests weak after the strip and
suppresses the header. -/
theorem updateItem_ifMatch_header_witness :
    (jsTrim (stripWeak "W/\"abc\"") ≠ "") ∧
    (isWeak (some (jsTrim (stripWeak "W/\"abc\""))) = false) ∧
    (jsTrim (stripWeak "W/\"abc\"") = "\"abc\"") ∧
    updateItemHeaders (some "W/\"abc\"") =
      [("Content-Type", "text/calendar; charset=utf-8"),
       ("If-Match", jsTrim (stripWeak "W/\"abc\""))] ∧
    (isWeak (some (jsTrim (stripWeak "W/W/\"z\""))) = true) ∧
    updateItemHeaders (some "W/W/\"z\"") =
      [("Content-Type", "text/calendar; charset=utf-8")] := by
  refine ⟨by decide, by decide, by decide, ?_, by decide, ?_⟩
  · exact (updateItem_ifMatch_header "W/\"abc\"").1 (by decide) (by decide)
  · exact (updateItem_ifMatch_header "W/W/\"z\"").2.1 (by decide)

/-- C7.  Every createItem PUT carries the If-None-Match star precondition, so
the write requires the resource not to exist; and when the server answers 412
the call fails with the uid-collision conflict error — it does not resolve
successfully. -/
theorem createItem_conflict (srv : PutServer) (genUid calendarUrl : String)
    (uidData : Option String) (itemType : String) (hurl : calendarUrl ≠ "") :
    ("If-None-Match", "*") ∈ (createItemRequest genUid calendarUrl uidData).headers ∧
    (srv.putStatus = 412 →
      createItem srv genUid calendarUrl uidData itemType =
        .err (capitalizeFirst itemType ++ " with the specified uid already exists.") ∧
      ∀ r, createItem srv genUid calendarUrl uidData itemType ≠ .ok r) := by
  constructor
  · simp [createItemRequest]
  · intro h412
    have hno : ¬ (srv.putStatus = 201 ∨ srv.putStatus = 204) := by
      rintro (hs | hs) <;> rw [hs] at h412 <;> exact absurd h412 (by decide)
    constructor
    · simp [createItem, hurl, hno, h412]
    · intro r
      simp [createItem, hurl, hno, h412]

/-- Witness for C7: a duplicate-uid create against a server answering 412. -/
theorem createItem_conflict_witness :
    (("/cal" : String) ≠ "") ∧
    ("If-None-Match", "*") ∈ (createItemRequest "gen-uid" "/cal" (some "dup")).headers ∧
    ((PutServer.mk 412 none "ct2").putStatus = 412) ∧
    createItem (PutServer.mk 412 none "ct2") "gen-uid" "/cal" (some "dup") "event" =
      .err "Event with the specified uid already exists." ∧
    ∀ r, createItem (PutServer.mk 412 none "ct2") "gen-uid" "/cal" (some "dup") "event" ≠ .ok r := by
  have h := createItem_conflict (PutServer.mk 412 none "ct2") "gen-uid" "/cal"
    (some "dup") "event" (by decide)
  have h2 := h.2 rfl
  refine ⟨by decide, h.1, rfl, ?_, h2.2⟩
  rw [show ("Event with the specified uid already exists." : String) =
    capitalizeFirst "event" ++ " with the specified uid already exists." from by decide]
  exact h2.1

/-- Counterexample to C9 as stated: at a concrete timed event with a supplied
start timezone identifier and distinct UTC and local views, the current
encoder (part_002 buildICSData) stores the UTC-view time with the identifier
as a TZID parameter, so the serialized DTSTART line carries the UTC timestamp
with the Z designator — not the local wall-clock rendering the claim
asserts. -/
theorem buildICSData_timed_timestamps_counterexample :
    (buildICSData ⟨2024, 1, 1, 0, 0, 0⟩
        (Event.mk none "m" ⟨⟨2024, 5, 1, 9, 5, 7⟩, ⟨2024, 5, 1, 11, 5, 7⟩⟩
          ⟨⟨2024, 5, 1, 10, 0, 0⟩, ⟨2024, 5, 1, 12, 0, 0⟩⟩
          none none none none (some "Europe/Berlin") none none) "u").dtstart =
      some ⟨.dt ⟨2024, 5, 1, 9, 5, 7⟩ true, some "Europe/Berlin"⟩ ∧
    dtPropertyLine "DTSTART" ⟨.dt ⟨2024, 5, 1, 9, 5, 7⟩ true, some "Europe/Berlin"⟩ =
      "DTSTART;TZID=Europe/Berlin:20240501T090507Z" ∧
    dtPropertyLine "DTSTART" ⟨.dt ⟨2024, 5, 1, 9, 5, 7⟩ true, some "Europe/Berlin"⟩ ≠
      "DTSTART;TZID=Europe/Berlin:20240501T110507" := by
  refine ⟨by decide, by decide, by decide⟩

/-- C9, amended.  For every timed (non whole-day) event, part_002 buildICSData
stores DTSTART and DTEND as the UTC view of the JavaScript date
(ICAL.Time.fromJSDate with useUTC), attaching the caller-supplied timezone
identifier as a TZID parameter exactly when it is truthy; the serialized value
is the full UTC timestamp with the Z designator in both cases — a supplied
identifier tags the property but does not switch the timestamp to local
wall-clock form. -/
theorem buildICSData_timed_timestamps (now : DT) (e : Event) (uid : String)
    (h : ¬ e.wholeDay = some true) :
    (buildICSData now e uid).dtstart =
      some ⟨.dt e.start.utc true, truthyStr e.startTzid⟩ ∧
    (buildICSData now e uid).dtend =
      some ⟨.dt e.endTime.utc true, truthyStr e.endTzid⟩ ∧
    (truthyStr e.startTzid = none →
      dtPropertyLine "DTSTART" ⟨.dt e.start.utc true, truthyStr e.startTzid⟩ =
        "DTSTART:" ++
          (isoYear e.start.utc.year ++ pad e.start.utc.month ++ pad e.start.utc.day ++ "T" ++
           pad e.start.utc.hour ++ pad e.start.utc.minute ++ pad e.start.utc.second ++ "Z")) ∧
    (∀ z, truthyStr e.startTzid = some z →
      dtPropertyLine "DTSTART" ⟨.dt e.start.utc true, truthyStr e.startTzid⟩ =
        "DTSTART;TZID=" ++ z ++ ":" ++
          (isoYear e.start.utc.year ++ pad e.start.utc.month ++ pad e.start.utc.day ++ "T" ++
           pad e.start.utc.hour ++ pad e.start.utc.minute ++ pad e.start.utc.second ++ "Z")) ∧
    (truthyStr e.endTzid = none →
      dtPropertyLine "DTEND" ⟨.dt e.endTime.utc true, truthyStr e.endTzid⟩ =
        "DTEND:" ++
          (isoYear e.endTime.utc.year ++ pad e.endTime.utc.month ++ pad e.endTime.utc.day ++ "T" ++
           pad e.endTime.utc.hour ++ pad e.endTime.utc.minute ++ pad e.endTime.utc.second ++ "Z")) ∧
    (∀ z, truthyStr e.endTzid = some z →
      dtPropertyLine "DTEND" ⟨.dt e.endTime.utc true, truthyStr e.endTzid⟩ =
        "DTEND;TZID=" ++ z ++ ":" ++
          (isoYear e.endTime.utc.year ++ pad e.endTime.utc.month ++ pad e.endTime.utc.day ++ "T" ++
           pad e.endTime.utc.hour ++ pad e.endTime.utc.minute ++ pad e.endTime.utc.second ++ "Z")) := by
  refine ⟨?_, ?_, ?_, ?_, ?_, ?_⟩
  · simp [buildICSData, if_neg h]
  · simp [buildICSData, if_neg h]
  · intro hz
    simp [dtPropertyLine, icalTimeString, hz]
  · intro z hz
    simp only [dtPropertyLine, icalTimeString, hz]
    rfl
  · intro hz
    simp [dtPropertyLine, icalTimeString, hz]
  · intro z hz
    simp only [dtPropertyLine, icalTimeString, hz]
    rfl

/-- Witness for the amended C9 at a concrete timed event with distinct UTC
and local views, no start identifier and a truthy end identifier: both lines
render the UTC timestamp with the Z designator, the end line additionally
TZID-tagged. -/
theorem buildICSData_timed_timestamps_witness :
    (¬ (none : Option Bool) = some true) ∧
    truthyStr (some "Europe/Berlin") = some "Europe/Berlin" ∧
    dtPropertyLine "DTSTART" ⟨.dt ⟨2024, 5, 1, 9, 5, 7⟩ true, truthyStr none⟩ =
      "DTSTART:20240501T090507Z" ∧
    dtPropertyLine "DTEND" ⟨.dt ⟨2024, 5, 1, 10, 0, 0⟩ true, truthyStr (some "Europe/Berlin")⟩ =
      "DTEND;TZID=Europe/Berlin:20240501T100000Z" := by
  have h := buildICSData_timed_timestamps ⟨2024, 1, 1, 0, 0, 0⟩
    (Event.mk none "m" ⟨⟨2024, 5, 1, 9, 5, 7⟩, ⟨2024, 5, 1, 11, 5, 7⟩⟩
      ⟨⟨2024, 5, 1, 10, 0, 0⟩, ⟨2024, 5, 1, 12, 0, 0⟩⟩
      none none none none none (some "Europe/Berlin") none) "u" (by decide)
  refine ⟨by decide, by decide, ?_, ?_⟩
  · exact (h.2.2.1 rfl).trans (by decide)
  · exact (h.2.2.2.2.2 "Europe/Berlin" rfl).trans (by decide)

end TsCalDAV
